import Mathlib

/-!
Verification of the Chorus marketplace core (agent directory, ledger,
reputation, job dispatch, hire settlement, and the Studio pipeline
executor) against a shallow embedding of the repository's JavaScript
sources (`portal/js/config.js`, `portal/js/studio.js`, the unnamed
portal app file) and the protocol document `PROTOCOL_SPEC.md`.

Credits and reputation scores are modelled as rationals; JS objects with
possibly-missing fields are modelled with `Option` fields; async calls
that may never settle are modelled as `Option`-returning functions over
an explicit environment outcome.
-/

/-- Job status enum of the protocol (`"SUCCESS" | "FAILURE"`). -/
inductive JStatus where
  | SUCCESS
  | FAILURE
deriving DecidableEq, Repr

/-- A JobResult as the portal code consumes it.  Fields that a JS object
may lack (`output_data`, `error_message` on synthesized results) are
`Option`; `execution_cost` is 0 where the JS object leaves it undefined,
which agrees with every use site (`result.execution_cost > 0` is false
for undefined, `result.execution_cost || 0` is 0). -/
structure JobRes (α : Type) where
  status : JStatus
  output_data : Option α
  execution_cost : ℚ
  job_id : String
  error_message : Option String
deriving DecidableEq, Repr

/-! ## Reputation Engine — `PROTOCOL_SPEC.md` §4 (Reputation Algorithm v0.1) -/

/-- `Score is clamped to [0.0, 100.0]` (PROTOCOL_SPEC.md §4). -/
def clampScore (x : ℚ) : ℚ := max 0 (min 100 x)

/-- One reputation update (PROTOCOL_SPEC.md §4):
after SUCCESS `old + (weight * contractor_reputation / 100)`,
after FAILURE `old - (penalty * 1.5)`, with weight 2.0 and penalty 3.0,
clamped to [0, 100]. -/
def repUpdate (old contractorRep : ℚ) : JStatus → ℚ
  | JStatus.SUCCESS => clampScore (old + 2 * (contractorRep / 100))
  | JStatus.FAILURE => clampScore (old - 3 * (1.5 : ℚ))

/-- A run of reputation updates for a fixed contractor reputation. -/
def repRun (start contractorRep : ℚ) (outcomes : List JStatus) : ℚ :=
  outcomes.foldl (fun s o => repUpdate s contractorRep o) start

/-! ## Ledger — `portal/js/config.js`, `API.getBalance` -/

/-- A row of the `ledger_accounts` table. -/
structure LedgerAccount where
  owner_id : String
  balance : ℚ
deriving DecidableEq, Repr

/-- `API.getBalance(ownerId)` (config.js): select the account row for
`ownerId` and return `data?.balance || 0` — the balance when a row is
found, 0 when none is (`.single()` yields no data). -/
def getBalance (accounts : List LedgerAccount) (ownerId : String) : ℚ :=
  match accounts.find? (fun a => a.owner_id == ownerId) with
  | some a => a.balance
  | none => 0

/-! ## Job history — unnamed portal file, hire flow -/

/-- A record pushed onto `jobHistory` by `executeHireJob`. -/
structure JobRecord where
  id : String
  skill : String
  query : String
  cost : ℚ
  rating : Option Nat
deriving DecidableEq, Repr

/-- The history update of `executeHireJob` on SUCCESS:
`jobHistory.unshift(jobRecord); if (jobHistory.length > 50) jobHistory =
jobHistory.slice(0, 50);` followed by persisting the list. -/
def recordJob (history : List JobRecord) (rec : JobRecord) : List JobRecord :=
  if (rec :: history).length > 50 then (rec :: history).take 50 else rec :: history

/-- The history update of `rateJob`: find the first record with the given
id and set its `rating` in place; other records untouched. -/
def rateFirst : List JobRecord → String → Nat → List JobRecord
  | [], _, _ => []
  | j :: rest, jobId, r =>
      if j.id == jobId then { j with rating := some r } :: rest
      else j :: rateFirst rest jobId r

/-! ## Job Dispatcher — `portal/js/config.js`, `API.sendJob`

`sendJob` wraps a single `fetch` of `POST {endpoint}/jobs` in
`try/catch`.  The environment's side of that `fetch` is made explicit:
the promise can settle with an ok response whose body parses to a
result, settle ok with an unparseable body (`response.json()` throws),
settle with a non-ok response (`throw new Error('HTTP ' + status)`), be
rejected by the transport (network error / browser-level abort), or
never settle at all.  `sendJob` itself installs no timeout and races no
timer against the `fetch`, so a never-settling `fetch` gives a
never-returning `sendJob`, modelled as `none`. -/

/-- How the awaited `fetch(endpoint + "/jobs", ...)` (plus
`response.json()`) can turn out, seen from `API.sendJob`'s `try` block. -/
inductive FetchOutcome (β : Type) where
  | ok (body : β)
  | badJson (msg : String)
  | httpError (code : Nat)
  | netError (msg : String)
  | noResponse
deriving DecidableEq, Repr

/-- `API.sendJob` (config.js): returns the parsed body on an ok
response; on a thrown error (non-ok response, bad body, transport
failure) returns the synthesized `{ status: 'FAILURE', error_message:
err.message }`; produces nothing when the un-timed `fetch` never
settles. -/
def sendJob (α : Type) : FetchOutcome (JobRes α) → Option (JobRes α)
  | FetchOutcome.ok body => some body
  | FetchOutcome.badJson msg => some ⟨JStatus.FAILURE, none, 0, "", some msg⟩
  | FetchOutcome.httpError code =>
      some ⟨JStatus.FAILURE, none, 0, "", some ("HTTP " ++ toString code)⟩
  | FetchOutcome.netError msg => some ⟨JStatus.FAILURE, none, 0, "", some msg⟩
  | FetchOutcome.noResponse => none

/-! ## Agent Directory — `portal/js/config.js`, `API.discover`

The `agents` table is a list of rows; the Supabase query
`.gte('reputation_score', minRep)` plus the conditional
`.eq('skill', skill)` (applied only when `skill` is truthy, i.e. neither
null nor the empty string) is a filter over those rows. -/

/-- A row of the `agents` table. -/
structure AgentRow where
  id : String
  name : String
  owner_id : String
  endpoint : String
  skill : String
  cost_per_call : ℚ
  reputation_score : ℚ
deriving DecidableEq, Repr

/-- The record shape `API.discover` maps each row to. -/
structure AgentInfo where
  agent_id : String
  agent_name : String
  owner_id : String
  api_endpoint : String
  reputation_score : ℚ
  skill_name : String
  cost_per_call : ℚ
deriving DecidableEq, Repr

def toAgentInfo (a : AgentRow) : AgentInfo :=
  ⟨a.id, a.name, a.owner_id, a.endpoint, a.reputation_score, a.skill, a.cost_per_call⟩

/-- The rows `API.discover(skill, minRep)` selects:
`reputation_score >= minRep` always, `skill` equality only when the
`skill` argument is truthy (JS: `if (skill) query = query.eq(...)`). -/
def discoverRows (db : List AgentRow) (skill : Option String) (minRep : ℚ) : List AgentRow :=
  let base := db.filter (fun a => decide (minRep ≤ a.reputation_score))
  match skill with
  | none => base
  | some s => if s == "" then base else base.filter (fun a => a.skill == s)

/-- `API.discover` returns the selected rows mapped to `AgentInfo`. -/
def discover (db : List AgentRow) (skill : Option String) (minRep : ℚ) : List AgentInfo :=
  (discoverRows db skill minRep).map toAgentInfo

/-! ## Settlement — unnamed portal file, `executeHireJob`

On `result.status === 'SUCCESS'`, `executeHireJob` pays the agent owner
with `API.transfer(state.user.ownerId, agentOwner, result.execution_cost,
result.job_id)`, guarded by `state.user && agentOwner &&
result.execution_cost > 0`.  No other branch transfers anything. -/

/-- One `API.transfer` call (config.js `transfer`): sender, receiver,
amount, and the job id carried in the description. -/
structure LedgerTransfer where
  fromOwner : String
  toOwner : String
  amount : ℚ
  jobId : String
deriving DecidableEq, Repr

/-- The observable actions of settling one hire-flow job result. -/
structure SettleActions where
  transfers : List LedgerTransfer
  repEvents : List (String × JStatus)
deriving DecidableEq, Repr

/-- The `API.transfer` calls made by `executeHireJob` for a job result:
exactly one, when the result is SUCCESS, a user is logged in, the agent
owner is known (truthy) and `execution_cost > 0`; none otherwise. -/
def hireSettleTransfers {α : Type} (user : Option String) (agentOwner : String)
    (r : JobRes α) : List LedgerTransfer :=
  if r.status = JStatus.SUCCESS then
    match user with
    | some uid =>
        if agentOwner ≠ "" ∧ 0 < r.execution_cost then
          [⟨uid, agentOwner, r.execution_cost, r.job_id⟩]
        else []
    | none => []
  else []

/-- Modelled from the spec: the Reputation Engine invocation ordered by
the Settlement Coordinator (spec §4.5) is server-side and absent from
the portal sources; per the spec it is invoked with the job's
SUCCESS/FAILURE outcome in every case, applied to the agent's record. -/
def settleReputation {α : Type} (agentId : String) (r : JobRes α) :
    List (String × JStatus) :=
  [(agentId, r.status)]

/-- Settlement of one hire-flow job result: the ledger transfers the
portal code performs plus the (spec-modelled) reputation invocation. -/
def settle {α : Type} (user : Option String) (agentOwner agentId : String)
    (r : JobRes α) : SettleActions :=
  ⟨hireSettleTransfers user agentOwner r, settleReputation agentId r⟩

/-! ## Pipeline Executor — `portal/js/studio.js`, `studio.executePipeline`

The canvas graph is `nodes` (id, label) and `connections` (from → to).
`executePipeline` takes the first node without incoming connections as
start, then loops: mark the node running, dispatch a job with the
current input, on SUCCESS mark it success, make the job's `output_data`
the next input and follow the first outgoing connection (run ends when
there is none, or its target is not a node); on FAILURE mark the node
error and stop the run as failed.  The per-node endpoint/skill
resolution (registry lookup plus demo fallbacks) and the dispatched
result are abstracted into one environment function `send` from node and
input to a settled job result.  A fuel argument bounds the walk, since
nothing stops the canvas from holding a cyclic graph. -/

/-- Node status strings written by the executor
(`'running' | 'success' | 'error'`). -/
inductive NodeStat where
  | running
  | success
  | error
deriving DecidableEq, Repr

/-- A canvas node (presentation fields x, y omitted). -/
structure PNode where
  id : String
  label : String
deriving DecidableEq, Repr

/-- A canvas connection `{ from, to }` (field names adjusted: `from` is
reserved in Lean). -/
structure PConn where
  fromId : String
  toId : String
deriving DecidableEq, Repr

/-- How a pipeline run ends: the final `current_input` shown as the
pipeline output, a failure at a node, or fuel exhaustion (unreachable on
acyclic graphs). -/
inductive RunOutcome (α : Type) where
  | succeeded (output : Option α)
  | failed (nodeId : String)
  | outOfFuel
deriving DecidableEq, Repr

/-- The observable trace of a pipeline run: jobs dispatched (node id and
`input_data`), node status writes in order, ledger transfers made during
the run, and the run's outcome. -/
structure PipeRun (α : Type) where
  dispatches : List (String × Option α)
  statusEvents : List (String × NodeStat)
  transfers : List LedgerTransfer
  outcome : RunOutcome α
deriving DecidableEq, Repr

/-- `studio.getStartNode()`: the first node with no incoming
connection. -/
def getStartNode (nodes : List PNode) (conns : List PConn) : Option PNode :=
  nodes.find? (fun n => !(conns.any (fun c => c.toId == n.id)))

/-- The `while (currentNode)` loop of `studio.executePipeline`. -/
def execLoop (α : Type) (send : PNode → Option α → JobRes α) (nodes : List PNode)
    (conns : List PConn) : Nat → PNode → Option α → PipeRun α → PipeRun α
  | 0, _, _, acc => { acc with outcome := RunOutcome.outOfFuel }
  | fuel + 1, cur, input, acc =>
      let acc1 : PipeRun α :=
        { acc with
          statusEvents := acc.statusEvents ++ [(cur.id, NodeStat.running)],
          dispatches := acc.dispatches ++ [(cur.id, input)] }
      let r := send cur input
      match r.status with
      | JStatus.FAILURE =>
          { acc1 with
            statusEvents := acc1.statusEvents ++ [(cur.id, NodeStat.error)],
            outcome := RunOutcome.failed cur.id }
      | JStatus.SUCCESS =>
          let acc2 : PipeRun α :=
            { acc1 with statusEvents := acc1.statusEvents ++ [(cur.id, NodeStat.success)] }
          match conns.find? (fun c => c.fromId == cur.id) with
          | none => { acc2 with outcome := RunOutcome.succeeded r.output_data }
          | some c =>
              match nodes.find? (fun n => n.id == c.toId) with
              | none => { acc2 with outcome := RunOutcome.succeeded r.output_data }
              | some nxt => execLoop α send nodes conns fuel nxt r.output_data acc2

/-- `studio.executePipeline`: reject (alert and return, dispatching
nothing) when no start node exists, otherwise walk the chain from the
start node with the run's external input payload. -/
def executePipeline (α : Type) (send : PNode → Option α → JobRes α)
    (nodes : List PNode) (conns : List PConn) (inputData : α) : Option (PipeRun α) :=
  match getStartNode nodes conns with
  | none => none
  | some start =>
      some (execLoop α send nodes conns (nodes.length + 1) start (some inputData)
        ⟨[], [], [], RunOutcome.outOfFuel⟩)

/-- A concrete demo environment: every node succeeds, returning its
input plus one, at cost 1. -/
def demoSend : PNode → Option Nat → JobRes Nat :=
  fun _ input => ⟨JStatus.SUCCESS, some (input.getD 0 + 1), 1, "job", none⟩

/-! ## Helper lemmas -/

theorem clampScore_mem (x : ℚ) : 0 ≤ clampScore x ∧ clampScore x ≤ 100 :=
  ⟨le_max_left 0 (min 100 x), max_le (by norm_num) (min_le_left 100 x)⟩

theorem rateFirst_length (h : List JobRecord) (jobId : String) (r : Nat) :
    (rateFirst h jobId r).length = h.length := by
  induction h with
  | nil => rfl
  | cons j rest ih =>
      by_cases hj : (j.id == jobId) = true
      · simp [rateFirst, hj]
      · simp [rateFirst, hj, ih]

/-- The executor loop never appends a ledger transfer: its transfer
trace is whatever the accumulator started with. -/
theorem execLoop_transfers (α : Type) (send : PNode → Option α → JobRes α)
    (nodes : List PNode) (conns : List PConn) :
    ∀ (fuel : Nat) (cur : PNode) (input : Option α) (acc : PipeRun α),
      (execLoop α send nodes conns fuel cur input acc).transfers = acc.transfers := by
  intro fuel
  induction fuel with
  | zero => intro cur input acc; rfl
  | succ n ih =>
      intro cur input acc
      simp only [execLoop]
      split
      · rfl
      · split
        · rfl
        · split
          · rfl
          · exact ih _ _ _

/-- The executor loop only extends the dispatch trace. -/
theorem execLoop_dispatches_prefix (α : Type) (send : PNode → Option α → JobRes α)
    (nodes : List PNode) (conns : List PConn) :
    ∀ (fuel : Nat) (cur : PNode) (input : Option α) (acc : PipeRun α),
      ∃ t, (execLoop α send nodes conns fuel cur input acc).dispatches =
        acc.dispatches ++ t := by
  intro fuel
  induction fuel with
  | zero => intro cur input acc; exact ⟨[], by simp [execLoop]⟩
  | succ n ih =>
      intro cur input acc
      simp only [execLoop]
      split
      · exact ⟨[(cur.id, input)], rfl⟩
      · split
        · exact ⟨[(cur.id, input)], rfl⟩
        · split
          · exact ⟨[(cur.id, input)], rfl⟩
          · rename_i nxt _
            obtain ⟨t, ht⟩ := ih nxt ((send cur input).output_data)
              ⟨acc.dispatches ++ [(cur.id, input)],
                acc.statusEvents ++ [(cur.id, NodeStat.running)] ++ [(cur.id, NodeStat.success)],
                acc.transfers, acc.outcome⟩
            refine ⟨(cur.id, input) :: t, ?_⟩
            rw [ht, List.append_assoc, List.singleton_append]

/-- With at least one unit of fuel, the first dispatch of the loop is
the current node with the current input. -/
theorem execLoop_dispatches_head (α : Type) (send : PNode → Option α → JobRes α)
    (nodes : List PNode) (conns : List PConn) (fuel : Nat) (cur : PNode)
    (input : Option α) (acc : PipeRun α) :
    ∃ t, (execLoop α send nodes conns (fuel + 1) cur input acc).dispatches =
      acc.dispatches ++ (cur.id, input) :: t := by
  simp only [execLoop]
  split
  · exact ⟨[], rfl⟩
  · split
    · exact ⟨[], rfl⟩
    · split
      · exact ⟨[], rfl⟩
      · rename_i nxt _
        obtain ⟨t, ht⟩ := execLoop_dispatches_prefix α send nodes conns fuel nxt
          ((send cur input).output_data)
          ⟨acc.dispatches ++ [(cur.id, input)],
            acc.statusEvents ++ [(cur.id, NodeStat.running)] ++ [(cur.id, NodeStat.success)],
            acc.transfers, acc.outcome⟩
        refine ⟨t, ?_⟩
        rw [ht, List.append_assoc, List.singleton_append]

/-! ## Claim theorems (directory part) -/

/-- C5: `sendJob` never raises to its caller: every settled fetch
outcome yields a typed result; on a non-ok HTTP response or a transport
error (or an unparseable body) the result has `status = FAILURE` and
carries the error's message; an ok response's parsed body is returned
as-is. -/
theorem sendJob_failure_typed (α : Type) (code : Nat) (msg : String) :
    (∃ r, sendJob α (FetchOutcome.httpError code) = some r ∧
        r.status = JStatus.FAILURE ∧ r.error_message = some ("HTTP " ++ toString code)) ∧
    (∃ r, sendJob α (FetchOutcome.netError msg) = some r ∧
        r.status = JStatus.FAILURE ∧ r.error_message = some msg) ∧
    (∃ r, sendJob α (FetchOutcome.badJson msg) = some r ∧
        r.status = JStatus.FAILURE ∧ r.error_message = some msg) ∧
    (∀ body : JobRes α, sendJob α (FetchOutcome.ok body) = some body) :=
  ⟨⟨_, rfl, rfl, rfl⟩, ⟨_, rfl, rfl, rfl⟩, ⟨_, rfl, rfl, rfl⟩, fun _ => rfl⟩

/-- C6 counterexample: when the endpoint never responds, `sendJob`
produces no result at all — in particular it does not return a FAILURE
result after any timeout, because none is configured. -/
theorem sendJob_noResponse_counterexample :
    sendJob Nat FetchOutcome.noResponse = none ∧
    ¬ ∃ r, sendJob Nat FetchOutcome.noResponse = some r ∧ r.status = JStatus.FAILURE := by
  refine ⟨rfl, ?_⟩
  rintro ⟨r, h, -⟩
  simp [sendJob] at h

/-- C6 amended: `sendJob` configures no per-job timeout; a never-settling
fetch makes it wait unboundedly (no result), while every settled outcome
yields a typed result. -/
theorem sendJob_no_timeout (α : Type) :
    sendJob α FetchOutcome.noResponse = none ∧
    ∀ o : FetchOutcome (JobRes α), o ≠ FetchOutcome.noResponse → (sendJob α o).isSome := by
  refine ⟨rfl, ?_⟩
  intro o ho
  cases o <;> simp [sendJob] at ho ⊢

theorem sendJob_no_timeout_witness :
    (sendJob Nat (FetchOutcome.netError "connection refused")).isSome :=
  (sendJob_no_timeout Nat).2 (FetchOutcome.netError "connection refused") (by simp)

/-- C7: for every directory contents, `discover` with a (truthy) skill
and a minimum reputation returns exactly the agent records whose skill
equals the given one and whose reputation score is at least the
threshold, each mapped to the discovery record shape. -/
theorem discover_filter_exact (db : List AgentRow) (s : String) (minRep : ℚ)
    (hs : s ≠ "") :
    ∀ x : AgentInfo, x ∈ discover db (some s) minRep ↔
      ∃ a, a ∈ db ∧ a.skill = s ∧ minRep ≤ a.reputation_score ∧ toAgentInfo a = x := by
  intro x
  have hbe : (s == "") = false := by simp [hs]
  simp only [discover, discoverRows, hbe, Bool.false_eq_true, if_false, List.mem_map,
    List.mem_filter, decide_eq_true_eq, beq_iff_eq]
  constructor
  · rintro ⟨a, ⟨⟨ha, hrep⟩, hsk⟩, hx⟩
    exact ⟨a, ha, hsk, hrep, hx⟩
  · rintro ⟨a, ha, hsk, hrep, hx⟩
    exact ⟨a, ⟨⟨ha, hrep⟩, hsk⟩, hx⟩

theorem discover_filter_exact_witness :
    toAgentInfo ⟨"a1", "WeatherBot", "o1", "e1", "weather", 1, 70⟩ ∈
      discover [⟨"a1", "WeatherBot", "o1", "e1", "weather", 1, 70⟩,
        ⟨"a2", "WeatherLow", "o2", "e2", "weather", 1, 50⟩,
        ⟨"a3", "Translator", "o3", "e3", "translate", 1, 90⟩] (some "weather") 60 :=
  (discover_filter_exact _ "weather" 60 (by decide) _).mpr
    ⟨⟨"a1", "WeatherBot", "o1", "e1", "weather", 1, 70⟩, by simp, rfl, by norm_num, rfl⟩

/-- C4: for every starting score in [0, 100], every outcome sequence and
every contractor reputation in [0, 100], the reputation score produced by
the documented update rule stays in [0, 100]. -/
theorem reputation_score_bounded (start contractorRep : ℚ)
    (hs0 : 0 ≤ start) (hs1 : start ≤ 100)
    (_hc0 : 0 ≤ contractorRep) (_hc1 : contractorRep ≤ 100)
    (outcomes : List JStatus) :
    0 ≤ repRun start contractorRep outcomes ∧ repRun start contractorRep outcomes ≤ 100 := by
  induction outcomes generalizing start with
  | nil => exact ⟨hs0, hs1⟩
  | cons o rest ih =>
      have hstep : 0 ≤ repUpdate start contractorRep o ∧
          repUpdate start contractorRep o ≤ 100 := by
        cases o <;> exact clampScore_mem _
      exact ih _ hstep.1 hstep.2

theorem reputation_score_bounded_witness :
    0 ≤ (50 : ℚ) ∧ (50 : ℚ) ≤ 100 ∧ 0 ≤ (80 : ℚ) ∧ (80 : ℚ) ≤ 100 ∧
    (0 ≤ repRun 50 80 [JStatus.SUCCESS, JStatus.FAILURE] ∧
      repRun 50 80 [JStatus.SUCCESS, JStatus.FAILURE] ≤ 100) :=
  ⟨by norm_num, by norm_num, by norm_num, by norm_num,
    reputation_score_bounded 50 80 (by norm_num) (by norm_num) (by norm_num) (by norm_num) _⟩

/-- C9: `getBalance` returns the stored balance of the owner's account,
and for an owner with no account it returns 0 (a value, not an error —
`getBalance` is total). -/
theorem getBalance_correct (accounts : List LedgerAccount) (ownerId : String) :
    ((∀ a ∈ accounts, a.owner_id ≠ ownerId) → getBalance accounts ownerId = 0) ∧
    (∀ a, accounts.find? (fun b => b.owner_id == ownerId) = some a →
      getBalance accounts ownerId = a.balance) := by
  constructor
  · intro hnone
    have : accounts.find? (fun a => a.owner_id == ownerId) = none := by
      rw [List.find?_eq_none]
      intro a ha
      simp only [beq_iff_eq]
      exact hnone a ha
    simp [getBalance, this]
  · intro a ha
    simp [getBalance, ha]

theorem getBalance_correct_witness :
    getBalance [⟨"alice", 30⟩] "bob" = 0 ∧ getBalance [⟨"alice", 30⟩] "alice" = 30 :=
  ⟨(getBalance_correct [⟨"alice", 30⟩] "bob").1 (by decide),
    (getBalance_correct [⟨"alice", 30⟩] "alice").2 ⟨"alice", 30⟩ (by decide)⟩

/-- C10: after `recordJob` the persisted history holds at most 50
records, the new record sits at the front, a full history of 50 drops its
oldest (last) record, and the only other history-mutating operation
(`rateFirst`) never changes the length. -/
theorem jobHistory_cap (history : List JobRecord) (rec : JobRecord) :
    (recordJob history rec).length ≤ 50 ∧
    (recordJob history rec).head? = some rec ∧
    (history.length = 50 → recordJob history rec = rec :: history.dropLast) ∧
    (∀ jobId r, (rateFirst history jobId r).length = history.length) := by
  refine ⟨?_, ?_, ?_, ?_⟩
  · by_cases hlen : (rec :: history).length > 50
    · simp only [recordJob, if_pos hlen, List.length_take]
      omega
    · simp only [recordJob, if_neg hlen]
      omega
  · simp only [recordJob, List.take_succ_cons]
    split <;> simp
  · intro h50
    have hlen : (rec :: history).length > 50 := by simp [h50]
    have hdl : history.dropLast = history.take 49 := by
      have h49 : history.length - 1 = 49 := by omega
      rw [List.dropLast_eq_take, h49]
    simp [recordJob, if_pos hlen, List.take_succ_cons, hdl]
  · intro jobId r
    exact rateFirst_length history jobId r

/-- C1: on a chain A→B→C the executor dispatches to A with the external
input, feeds each successful job's `output_data` to the next node, and
returns the last output as the run's output when all succeed; the first
FAILURE ends the run as failed at that node, with no later node
dispatched. -/
theorem pipeline_chain_execution (α : Type) (A B C : PNode)
    (send : PNode → Option α → JobRes α) (x : α)
    (hAB : A.id ≠ B.id) (hAC : A.id ≠ C.id) (hBC : B.id ≠ C.id) :
    ((send A (some x)).status = JStatus.FAILURE →
      executePipeline α send [A, B, C] [⟨A.id, B.id⟩, ⟨B.id, C.id⟩] x =
        some ⟨[(A.id, some x)], [(A.id, NodeStat.running), (A.id, NodeStat.error)], [],
          RunOutcome.failed A.id⟩) ∧
    ((send A (some x)).status = JStatus.SUCCESS →
      (send B (send A (some x)).output_data).status = JStatus.FAILURE →
      executePipeline α send [A, B, C] [⟨A.id, B.id⟩, ⟨B.id, C.id⟩] x =
        some ⟨[(A.id, some x), (B.id, (send A (some x)).output_data)],
          [(A.id, NodeStat.running), (A.id, NodeStat.success), (B.id, NodeStat.running),
            (B.id, NodeStat.error)], [], RunOutcome.failed B.id⟩) ∧
    ((send A (some x)).status = JStatus.SUCCESS →
      (send B (send A (some x)).output_data).status = JStatus.SUCCESS →
      (send C (send B (send A (some x)).output_data).output_data).status = JStatus.FAILURE →
      executePipeline α send [A, B, C] [⟨A.id, B.id⟩, ⟨B.id, C.id⟩] x =
        some ⟨[(A.id, some x), (B.id, (send A (some x)).output_data),
            (C.id, (send B (send A (some x)).output_data).output_data)],
          [(A.id, NodeStat.running), (A.id, NodeStat.success), (B.id, NodeStat.running),
            (B.id, NodeStat.success), (C.id, NodeStat.running), (C.id, NodeStat.error)], [],
          RunOutcome.failed C.id⟩) ∧
    ((send A (some x)).status = JStatus.SUCCESS →
      (send B (send A (some x)).output_data).status = JStatus.SUCCESS →
      (send C (send B (send A (some x)).output_data).output_data).status = JStatus.SUCCESS →
      executePipeline α send [A, B, C] [⟨A.id, B.id⟩, ⟨B.id, C.id⟩] x =
        some ⟨[(A.id, some x), (B.id, (send A (some x)).output_data),
            (C.id, (send B (send A (some x)).output_data).output_data)],
          [(A.id, NodeStat.running), (A.id, NodeStat.success), (B.id, NodeStat.running),
            (B.id, NodeStat.success), (C.id, NodeStat.running), (C.id, NodeStat.success)], [],
          RunOutcome.succeeded
            (send C (send B (send A (some x)).output_data).output_data).output_data⟩) := by
  have nBA : (B.id == A.id) = false := beq_eq_false_iff_ne.mpr (Ne.symm hAB)
  have nCA : (C.id == A.id) = false := beq_eq_false_iff_ne.mpr (Ne.symm hAC)
  have nAB : (A.id == B.id) = false := beq_eq_false_iff_ne.mpr hAB
  have nCB : (C.id == B.id) = false := beq_eq_false_iff_ne.mpr (Ne.symm hBC)
  have nAC : (A.id == C.id) = false := beq_eq_false_iff_ne.mpr hAC
  have nBC : (B.id == C.id) = false := beq_eq_false_iff_ne.mpr hBC
  refine ⟨?_, ?_, ?_, ?_⟩
  · intro hA
    simp [executePipeline, getStartNode, execLoop, List.find?, hA,
      nBA, nCA, nAB, nCB, nAC, nBC]
  · intro hA hB
    simp [executePipeline, getStartNode, execLoop, List.find?, hA, hB,
      nBA, nCA, nAB, nCB, nAC, nBC]
  · intro hA hB hC
    simp [executePipeline, getStartNode, execLoop, List.find?, hA, hB, hC,
      nBA, nCA, nAB, nCB, nAC, nBC]
  · intro hA hB hC
    simp [executePipeline, getStartNode, execLoop, List.find?, hA, hB, hC,
      nBA, nCA, nAB, nCB, nAC, nBC]

theorem pipeline_chain_execution_witness :
    executePipeline Nat demoSend [⟨"a", "Agent A"⟩, ⟨"b", "Agent B"⟩, ⟨"c", "Agent C"⟩]
      [⟨"a", "b"⟩, ⟨"b", "c"⟩] 5 =
      some ⟨[("a", some 5), ("b", some 6), ("c", some 7)],
        [("a", NodeStat.running), ("a", NodeStat.success), ("b", NodeStat.running),
          ("b", NodeStat.success), ("c", NodeStat.running), ("c", NodeStat.success)],
        [], RunOutcome.succeeded (some 8)⟩ :=
  (pipeline_chain_execution Nat ⟨"a", "Agent A"⟩ ⟨"b", "Agent B"⟩ ⟨"c", "Agent C"⟩
    demoSend 5 (by decide) (by decide) (by decide)).2.2.2 rfl rfl rfl

/-- C2 counterexample: a graph with two nodes and no connections has two
nodes without incoming edges, yet `executePipeline` is not rejected — it
dispatches a job to the first of them. -/
theorem pipeline_two_starts_counterexample :
    (([⟨"a", "Agent A"⟩, ⟨"b", "Agent B"⟩] : List PNode).filter
        (fun n => !(([] : List PConn).any (fun c => c.toId == n.id)))).length = 2 ∧
    (executePipeline Nat demoSend [⟨"a", "Agent A"⟩, ⟨"b", "Agent B"⟩] [] 7).map
      (fun pr => pr.dispatches) = some [("a", some 7)] :=
  ⟨rfl, rfl⟩

/-- C2 amended: no start-node uniqueness is validated.  When no node
lacks an incoming connection the run is rejected before any dispatch;
otherwise the first such node in node order is taken as start — even
when several qualify — and a job is dispatched to it with the external
input. -/
theorem pipeline_start_selection (α : Type) (send : PNode → Option α → JobRes α)
    (nodes : List PNode) (conns : List PConn) (x : α) :
    (getStartNode nodes conns = none → executePipeline α send nodes conns x = none) ∧
    (∀ n1 rest, nodes = n1 :: rest →
      (conns.any (fun c => c.toId == n1.id)) = false →
      (executePipeline α send nodes conns x).map (fun pr => pr.dispatches.head?) =
        some (some (n1.id, some x))) := by
  constructor
  · intro h
    simp [executePipeline, h]
  · intro n1 rest hn hstart
    subst hn
    have hstartnode : getStartNode (n1 :: rest) conns = some n1 := by
      simp [getStartNode, List.find?, hstart]
    obtain ⟨t, ht⟩ := execLoop_dispatches_head α send (n1 :: rest) conns
      ((n1 :: rest).length) n1 (some x) ⟨[], [], [], RunOutcome.outOfFuel⟩
    simp only [List.length_cons] at ht
    simp [executePipeline, hstartnode, ht]

theorem pipeline_start_selection_witness :
    (executePipeline Nat demoSend [⟨"x1", "Agent X"⟩, ⟨"x2", "Agent Y"⟩] [] 9).map
      (fun pr => pr.dispatches.head?) = some (some ("x1", some 9)) :=
  (pipeline_start_selection Nat demoSend [⟨"x1", "Agent X"⟩, ⟨"x2", "Agent Y"⟩] [] 9).2
    ⟨"x1", "Agent X"⟩ [⟨"x2", "Agent Y"⟩] rfl rfl

/-- C8 counterexample: a run on a→b in which node a's job SUCCEEDS with
a positive `execution_cost` performs no ledger transfer at all — the
executor never invokes Settlement. -/
theorem pipeline_no_settlement_counterexample :
    (executePipeline Nat demoSend [⟨"a", "Agent A"⟩, ⟨"b", "Agent B"⟩] [⟨"a", "b"⟩] 7).map
      (fun pr => pr.transfers) = some [] ∧
    (demoSend ⟨"a", "Agent A"⟩ (some 7)).status = JStatus.SUCCESS ∧
    0 < (demoSend ⟨"a", "Agent A"⟩ (some 7)).execution_cost ∧
    (executePipeline Nat demoSend [⟨"a", "Agent A"⟩, ⟨"b", "Agent B"⟩] [⟨"a", "b"⟩] 7).map
      (fun pr => pr.statusEvents) =
        some [("a", NodeStat.running), ("a", NodeStat.success), ("b", NodeStat.running),
          ("b", NodeStat.success)] := by
  refine ⟨rfl, rfl, ?_, rfl⟩
  norm_num [demoSend]

/-- C8 amended: on a successful node the executor marks it success, uses
the job's `output_data` as the next node's input, and advances along the
node's first outgoing connection; it performs no settlement — the run's
transfer trace is empty. -/
theorem pipeline_success_step (α : Type) (A B : PNode) (send : PNode → Option α → JobRes α)
    (x : α) (hAB : A.id ≠ B.id)
    (hA : (send A (some x)).status = JStatus.SUCCESS) :
    (executePipeline α send [A, B] [⟨A.id, B.id⟩] x).map (fun pr => pr.transfers) = some [] ∧
    (executePipeline α send [A, B] [⟨A.id, B.id⟩] x).map (fun pr => pr.statusEvents.take 3) =
      some [(A.id, NodeStat.running), (A.id, NodeStat.success), (B.id, NodeStat.running)] ∧
    (executePipeline α send [A, B] [⟨A.id, B.id⟩] x).map (fun pr => pr.dispatches) =
      some [(A.id, some x), (B.id, (send A (some x)).output_data)] := by
  have nBA : (B.id == A.id) = false := beq_eq_false_iff_ne.mpr (Ne.symm hAB)
  have nAB : (A.id == B.id) = false := beq_eq_false_iff_ne.mpr hAB
  cases hB : (send B (send A (some x)).output_data).status <;>
    refine ⟨?_, ?_, ?_⟩ <;>
    simp [executePipeline, getStartNode, execLoop, List.find?, hA, hB, nBA, nAB]

theorem pipeline_success_step_witness :
    (executePipeline Nat demoSend [⟨"a", "Agent A"⟩, ⟨"b", "Agent B"⟩] [⟨"a", "b"⟩] 3).map
      (fun pr => pr.transfers) = some [] ∧
    (executePipeline Nat demoSend [⟨"a", "Agent A"⟩, ⟨"b", "Agent B"⟩] [⟨"a", "b"⟩] 3).map
      (fun pr => pr.statusEvents.take 3) =
      some [("a", NodeStat.running), ("a", NodeStat.success), ("b", NodeStat.running)] ∧
    (executePipeline Nat demoSend [⟨"a", "Agent A"⟩, ⟨"b", "Agent B"⟩] [⟨"a", "b"⟩] 3).map
      (fun pr => pr.dispatches) = some [("a", some 3), ("b", some 4)] :=
  pipeline_success_step Nat ⟨"a", "Agent A"⟩ ⟨"b", "Agent B"⟩ demoSend 3 (by decide) rfl

/-- C3: with a logged-in requester and a known agent owner, settling a
hire-flow job result performs exactly one ledger transfer of
`execution_cost` from the requester to the agent owner iff the result is
SUCCESS with `execution_cost > 0`, and the (spec-modelled) Reputation
Engine is invoked with the job's outcome in every case. -/
theorem settle_transfer_iff (α : Type) (uid agentOwner agentId : String) (r : JobRes α)
    (how : agentOwner ≠ "") :
    ((settle (some uid) agentOwner agentId r).transfers ≠ [] ↔
      (r.status = JStatus.SUCCESS ∧ 0 < r.execution_cost)) ∧
    (r.status = JStatus.SUCCESS → 0 < r.execution_cost →
      (settle (some uid) agentOwner agentId r).transfers =
        [⟨uid, agentOwner, r.execution_cost, r.job_id⟩]) ∧
    (settle (some uid) agentOwner agentId r).repEvents = [(agentId, r.status)] := by
  refine ⟨?_, ?_, rfl⟩
  · by_cases hs : r.status = JStatus.SUCCESS
    · by_cases hcost : 0 < r.execution_cost
      · simp [settle, hireSettleTransfers, hs, hcost, how]
      · simp [settle, hireSettleTransfers, hs, hcost]
    · simp [settle, hireSettleTransfers, hs]
  · intro hs hcost
    simp [settle, hireSettleTransfers, hs, hcost, how]

theorem settle_transfer_iff_witness :
    (settle (some "req") "owner1" "agent1"
        (⟨JStatus.SUCCESS, some 1, 2, "j1", none⟩ : JobRes Nat)).transfers =
      [⟨"req", "owner1", 2, "j1"⟩] ∧
    (settle (some "req") "owner1" "agent1"
        (⟨JStatus.SUCCESS, some 1, 2, "j1", none⟩ : JobRes Nat)).repEvents =
      [("agent1", JStatus.SUCCESS)] := by
  have h := settle_transfer_iff Nat "req" "owner1" "agent1"
    ⟨JStatus.SUCCESS, some 1, 2, "j1", none⟩ (by decide)
  exact ⟨h.2.1 rfl (by norm_num), h.2.2⟩

theorem jobHistory_cap_witness :
    (recordJob (List.replicate 50 ⟨"old", "s", "q", 0, none⟩) ⟨"new", "s", "q", 1, none⟩).length ≤ 50 ∧
    recordJob (List.replicate 50 ⟨"old", "s", "q", 0, none⟩) ⟨"new", "s", "q", 1, none⟩ =
      ⟨"new", "s", "q", 1, none⟩ :: (List.replicate 50 (⟨"old", "s", "q", 0, none⟩ : JobRecord)).dropLast := by
  have h := jobHistory_cap (List.replicate 50 ⟨"old", "s", "q", 0, none⟩) ⟨"new", "s", "q", 1, none⟩
  exact ⟨h.1, h.2.2.1 (by simp)⟩
